import Mathlib

/-!
Verification development for the structured-op matcher engine in
src/llvm-external-projects/iree-dialects/lib/Transforms/TransformMatchers.cpp.

The IR graph (operations, values, uses) is modelled as read-only data; the
matcher engine (predicate lists, capture cells, nested matchers, subset
traversals, exhaustiveness check) is embedded as executable Lean functions
that follow the C++ source line by line.  Pointer-valued entities are
modelled by indices: operations and values are natural-number ids into the
lists of a Graph.  C++ behaviour that is undefined (an out-of-bounds
SmallVector access, a failed assertion) or non-terminating is represented by
the result none; every defined, terminating execution of the source is
represented by some result.
-/

namespace TransformMatchers

/-- Iterator kinds of a structured op dimension (utils::IteratorType). -/
inductive IteratorType
  | parallel
  | reduction
deriving DecidableEq, Repr

/-- Shape kinds accepted by the dim predicates (transform_ext::ShapeKind). -/
inductive ShapeKind
  | static
  | dynamic
deriving DecidableEq, Repr

/-- Classification of an operand's indexing map, the only facts about
AffineMap the matcher consumes (isPermutation / isProjectedPermutation). -/
inductive MapClass
  | permutation
  | projectedPermutation
  | arbitrary
deriving DecidableEq, Repr

/-- A permutation map is a projected permutation as well. -/
def MapClass.isPerm : MapClass → Bool
  | .permutation => true
  | _ => false

/-- Projected permutation check: true for permutations and projected
permutations, false for arbitrary maps. -/
def MapClass.isProjPerm : MapClass → Bool
  | .permutation => true
  | .projectedPermutation => true
  | _ => false

/-- Kinds of graph operations the matcher distinguishes via dyn_cast:
structured (linalg) ops, scf::ForeachThreadOp, tensor::ExtractSliceOp,
func::FuncOp, and everything else. -/
inductive OpKind
  | linalgGeneric
  | linalgFill
  | linalgOther
  | foreachThread
  | extractSlice
  | func
  | other
deriving DecidableEq, Repr

/-- dyn_cast to linalg::LinalgOp succeeds exactly on the linalg kinds. -/
def OpKind.isLinalg : OpKind → Bool
  | .linalgGeneric => true
  | .linalgFill => true
  | .linalgOther => true
  | _ => false

/-- One use site of a value: the owning operation and the operand index
(models an OpOperand; two OpOperand pointers are equal iff owner and
operand index agree). -/
structure Use where
  owner : Nat
  operandIdx : Nat
deriving DecidableEq, Repr

/-- Per-value data: the producing operation (none for block arguments), the
operation owning the enclosing block (for block arguments), and the use
list. -/
structure ValueInfo where
  definingOp : Option Nat := none
  parentOp : Option Nat := none
  uses : List Use := []
deriving DecidableEq, Repr

/-- Per-operand data of a structured op: the incoming value, the indexing
map classification, and for output (init) operands the element bit width of
the operand type (none when the type is not a shaped int/float type) plus
the result of mlir::matchReduction for that output: whether it matched and
the collected combiner ops. -/
structure OperandInfo where
  value : Nat := 0
  mapClass : MapClass := MapClass.arbitrary
  elemBitWidth : Option Nat := none
  matchedReduction : Bool := false
  combinerOps : List Nat := []
deriving DecidableEq, Repr

/-- Per-operation data: kind tag, the structured-op view (static loop
ranges, iterator types, classified input and init operand lists, results),
the generic operand and result value lists used by the traversals, the
output block arguments of a foreach_thread loop with the operand index each
one is tied to, the operations transitively contained in this op's regions
(for walk), and the parent op. -/
structure OpData where
  kind : OpKind := OpKind.other
  loopRanges : List Int := []
  iterTypes : List IteratorType := []
  inputs : List OperandInfo := []
  inits : List OperandInfo := []
  results : List Nat := []
  operands : List Nat := []
  outputBBArgs : List Nat := []
  tiedOperandIdx : List Nat := []
  containedOps : List Nat := []
  parent : Option Nat := none
deriving DecidableEq, Repr

/-- The read-only IR graph: operations and values addressed by index. -/
structure Graph where
  ops : List OpData := []
  vals : List ValueInfo := []
deriving Repr

/-- Operation lookup (a dangling id yields the default op, which is not a
linalg op and has no uses, operands or regions). -/
def Graph.opData (g : Graph) (i : Nat) : OpData := g.ops.getD i {}

/-- Value lookup. -/
def Graph.valInfo (g : Graph) (i : Nat) : ValueInfo := g.vals.getD i {}

/-- Iteration rank, linalgOp.getNumLoops(). -/
def OpData.numLoops (od : OpData) : Nat := od.iterTypes.length

/-- ShapedType::kDynamic sentinel of the int64_t static shape encoding. -/
def kDynamic : Int := -(2 ^ 63)

/-- ShapedType::isDynamic on an int64_t dimension size. -/
def isDynamic (v : Int) : Bool := v == kDynamic

/-- Index normalization used by every positional predicate in the source:
idx >= 0 ? idx : n + idx. -/
def normPos (pos : Int) (n : Nat) : Int := if 0 ≤ pos then pos else (n : Int) + pos

/-- C++ indexing of a vector by an int64_t index: a value for an in-range
index, none (undefined behaviour) otherwise. -/
def getIdx {α : Type} (l : List α) (i : Int) : Option α :=
  if 0 ≤ i then l.get? i.toNat else none

/-!
Subset traversals, TransformMatchers.cpp lines 298-352.
-/

/-- Source lines 301-326, traverseSubsetsBackwards: walk from a value to its
logical producer, resolving foreach_thread output block arguments to the
tied loop operand and extract_slice results to their source.  The C++ loop
is fuel-indexed here; each iteration moves to another value, so a run
longer than the number of values revisits one and the C++ loop never
terminates: none models both that divergence and the assertion failure on a
block argument that is not a tied loop output. -/
def traverseSubsetsBackwards (g : Graph) : Nat → Nat → Option Nat
  | 0, _ => none
  | fuel + 1, v =>
    let vi := g.valInfo v
    match vi.definingOp with
    | none =>
      match vi.parentOp with
      | none => none
      | some blockOp =>
        if (g.opData blockOp).kind == OpKind.foreachThread then
          match (g.opData blockOp).outputBBArgs.findIdx? (fun bb => bb == v) with
          | none => none
          | some k =>
            traverseSubsetsBackwards g fuel
              ((g.opData blockOp).operands.getD
                ((g.opData blockOp).tiedOperandIdx.getD k 0) 0)
        else some blockOp
    | some defOp =>
      if (g.opData defOp).kind == OpKind.extractSlice then
        traverseSubsetsBackwards g fuel ((g.opData defOp).operands.getD 0 0)
      else some defOp

/-- Source lines 333-350, the inner for loop of traverseSubsetsForwardAnyUse
over the use list of the value the do-while iteration started from.  The
local variable val is only written inside the loop body, never read, so the
loop either returns an operation (Sum.inl) or falls off the end of the use
list with the last value written to val (Sum.inr).  For a foreach_thread
user the source searches, with llvm::find_if, for the first output block
argument whose tied operand differs from the current use. -/
def processUses (g : Graph) : List Use → Nat → Nat ⊕ Nat
  | [], val => Sum.inr val
  | u :: rest, _val =>
    let ud := g.opData u.owner
    if ud.kind == OpKind.foreachThread then
      match (List.range ud.outputBBArgs.length).find?
          (fun k => Use.mk u.owner (ud.tiedOperandIdx.getD k 0) != u) with
      | none => Sum.inl u.owner
      | some k => processUses g rest (ud.outputBBArgs.getD k 0)
    else if ud.kind == OpKind.extractSlice then
      processUses g rest (ud.results.getD 0 0)
    else Sum.inl u.owner

/-- Source lines 331-352, traverseSubsetsForwardAnyUse: the outer
do-while(true) loop.  One iteration runs the for loop over the current
value's uses (processUses); if the for loop falls off the end, the do-while
repeats from the value left in val.  Fuel-indexed as for the backward
traversal; none models a C++ execution that never terminates. -/
def traverseSubsetsForwardAnyUse (g : Graph) : Nat → Nat → Option Nat
  | 0, _ => none
  | fuel + 1, val =>
    match processUses g (g.valInfo val).uses val with
    | Sum.inl op => some op
    | Sum.inr val2 => traverseSubsetsForwardAnyUse g fuel val2

/-!
Matcher state, predicate language and evaluator,
TransformMatchers.cpp lines 34-558.
-/

/-- Mutable state threaded through a match: the caller-owned capture cells
(CaptureStaticValue slots, addressed by index) and the captured-node slot of
every matcher in the environment (StructuredOpMatcher::captured, addressed
by matcher id). -/
structure MState where
  cells : List Int := []
  captured : List (Option Nat) := []
deriving DecidableEq, Repr

/-- Write a capture cell (capture.value = ...). -/
def MState.setCell (st : MState) (i : Nat) (v : Int) : MState :=
  { st with cells := st.cells.set i v }

/-- Record the captured node of matcher m (captured = linalgOp). -/
def MState.setCaptured (st : MState) (m : Nat) (op : Nat) : MState :=
  { st with captured := st.captured.set m (some op) }

/-- Read the captured node of matcher m (CapturingOpMatcher::getCaptured). -/
def MState.getCaptured (st : MState) (m : Nat) : Option Nat :=
  st.captured.getD m none

/-- The predicates StructuredOpMatcher builder methods push onto the
predicate list.  Nested matchers are referenced by id into the matcher
environment; the bool argument of the operand/output/result cases is the
OptionalMatch flag. -/
inductive Pred
  | rankGE (n : Nat)
  | rankLE (n : Nat)
  | rankCapture (cell : Nat)
  | dimsShape (dims : List Int) (kind : ShapeKind)
  | allDimsShape (kind : ShapeKind)
  | dimsIter (dims : List Int) (kind : IteratorType)
  | allDimsExceptIter (excluded : List Int) (kind : IteratorType)
  | dimDivisibleBy (dim : Int) (divisor : Int)
  | dimCapture (dim : Int) (cell : Nat)
  | inputNumEq (n : Nat)
  | inputAllPerm
  | inputAllProjPerm
  | inputMatcher (pos : Int) (m : Nat) (optional : Bool)
  | inputSubsetOf (pos : Int) (m : Nat)
  | outputNumEq (n : Nat)
  | outputAllPerm
  | outputAllProjPerm
  | outputBitWidth (pos : Int) (w : Nat)
  | outputSingleCombiner (pos : Int)
  | outputMatcher (pos : Int) (m : Nat) (optional : Bool)
  | outputSubsetOf (pos : Int) (m : Nat)
  | resultAnyUseMatcher (pos : Int) (m : Nat) (optional : Bool)
  | resultAnyUseSubsetOf (pos : Int) (m : Nat) (optional : Bool)
  | allTilableCaptured
deriving DecidableEq, Repr

/-- A StructuredOpMatcher: the optional allow-list of op kinds supplied at
construction (m_StructuredOp with explicit op types; checked before any
predicate runs, per the spec, as the constructor lives in the header), the
ordered predicate list, and the ids of the nested matchers recorded by
recordNestedMatcher. -/
structure Matcher where
  allowed : Option (List OpKind) := none
  preds : List Pred := []
  nested : List Nat := []
deriving DecidableEq, Repr

/-- Signature of a recursive match callback: nested matcher id, operation
id, state in; match outcome (none for undefined/non-terminating executions)
and state out. -/
abbrev MatcherFn := Nat → Nat → MState → Option Bool × MState

/-- Source lines 560-579, StructuredOpMatcher::checkAllTilableMatched.
A null parent is an immediate non-match.  Otherwise parent->walk counts the
operations implementing TilingInterface under the scope root (in this model
the structured ops among the root and its transitively contained ops), the
non-null nodes captured by the given matchers are collected into a set
(SmallPtrSet, modelled by duplicate-free insertion into a list), the root
op is inserted as well, and the check succeeds iff the tilable count equals
the set size.  The matchers are passed as their getCaptured values. -/
def isTilable (od : OpData) : Bool := od.kind.isLinalg

/-- The operations parent->walk visits: the op itself and the ops
transitively contained in its regions. -/
def walkOps (g : Graph) (p : Nat) : List Nat := p :: (g.opData p).containedOps

/-- Number of tilable ops under a scope root (the ++numTilableOps walk). -/
def numTilable (g : Graph) (p : Nat) : Nat :=
  (walkOps g p).countP (fun o => isTilable (g.opData o))

/-- SmallPtrSet::insert on the model's duplicate-free list. -/
def insertOnce (l : List Nat) (x : Nat) : List Nat := if x ∈ l then l else x :: l

/-- The for loop of lines 570-574: insert every non-null captured node of
the given matchers into the set. -/
def capturedFold (acc : List Nat) : List (Option Nat) → List Nat
  | [] => acc
  | none :: rest => capturedFold acc rest
  | some o :: rest => capturedFold (insertOnce acc o) rest

/-- See the comment above isTilable; lines 560-579 of the source. -/
def checkAllTilableMatched (g : Graph) (parent : Option Nat) (root : Nat)
    (captures : List (Option Nat)) : Bool :=
  match parent with
  | none => false
  | some p =>
    decide (numTilable g p = (insertOnce (capturedFold [] captures) root).length)

/-- Modelled from the spec: the allTilableOpsCaptured combinator is declared
in the header (not under src); per spec section 4.4 it runs the
exhaustiveness check against the enclosing function scope, i.e. the nearest
ancestor of the function kind (getParentOfType). -/
def findAncestorFunc (g : Graph) : Nat → Nat → Option Nat
  | 0, _ => none
  | fuel + 1, op =>
    match (g.opData op).parent with
    | none => none
    | some p =>
      if (g.opData p).kind == OpKind.func then some p
      else findAncestorFunc g fuel p

/-- Source lines 88-110, the per-dimension loop of
dim(SmallVector<int64_t>, ShapeKind): normalize each index, reject indices
out of [0, size) as a non-match, require the dimension's dynamic marker to
agree with the requested kind. -/
def dimsShapeCheck (shape : List Int) (dims : List Int) (kind : ShapeKind) : Bool :=
  match dims with
  | [] => true
  | d :: rest =>
    let t := normPos d shape.length
    if t < 0 ∨ (shape.length : Int) ≤ t then false
    else if (isDynamic (shape.getD t.toNat 0)) != (kind == ShapeKind.static) then
      dimsShapeCheck shape rest kind
    else false

/-- Source lines 124-147, the per-dimension loop of
dim(SmallVector<int64_t>, IteratorType): same indexing rules against the
iterator-type array. -/
def dimsIterCheck (iters : List IteratorType) (dims : List Int) (kind : IteratorType) : Bool :=
  match dims with
  | [] => true
  | d :: rest =>
    let t := normPos d iters.length
    if t < 0 ∨ (iters.length : Int) ≤ t then false
    else if iters.getD t.toNat IteratorType.parallel == kind then
      dimsIterCheck iters rest kind
    else false

/-- Source lines 167-174, the enumerate loop of
dim(AllDimsExcept, IteratorType): skip enumerated dimensions whose index is
in the (already normalized) excluded set, require the rest to have the
requested iterator kind.  The index argument is the enumerate counter. -/
def allExceptAux (excluded : List Int) (kind : IteratorType) : Nat → List IteratorType → Bool
  | _, [] => true
  | i, ty :: rest =>
    if (i : Int) ∈ excluded then allExceptAux excluded kind (i + 1) rest
    else if ty == kind then allExceptAux excluded kind (i + 1) rest
    else false

/-- llvm::any_of over the users of a result, running the nested match
callback on each user until one succeeds (source lines 531-534). -/
def matchUsers (mf : MatcherFn) (mid : Nat) : List Nat → MState → Option Bool × MState
  | [], st => (some false, st)
  | u :: rest, st =>
    match mf mid u st with
    | (some true, st1) => (some true, st1)
    | (some false, st1) => matchUsers mf mid rest st1
    | (none, st1) => (none, st1)

/-- One registered predicate applied to a structured op, following the
lambda bodies pushed by the builder methods of TransformMatchers.cpp.  The
nested match callback mf abstracts the recursive StructuredOpMatcher::match
call; ownNested is the owning matcher's nested-matcher list (used only by
allTilableCaptured).  A none outcome models undefined behaviour (an
out-of-bounds operand or shape access) or a non-terminating traversal. -/
def evalPred (g : Graph) (mf : MatcherFn) (ownNested : List Nat) (p : Pred)
    (op : Nat) (st : MState) : Option Bool × MState :=
  let od := g.opData op
  match p with
  | .rankGE n => (some (decide (n ≤ od.numLoops)), st)
  | .rankLE n => (some (decide (od.numLoops ≤ n)), st)
  | .rankCapture c => (some true, st.setCell c od.numLoops)
  | .dimsShape dims kind => (some (dimsShapeCheck od.loopRanges dims kind), st)
  | .allDimsShape kind =>
    (some (od.loopRanges.all (fun d => (isDynamic d) != (kind == ShapeKind.static))), st)
  | .dimsIter dims kind => (some (dimsIterCheck od.iterTypes dims kind), st)
  | .allDimsExceptIter excl kind =>
    (some (allExceptAux (excl.map (fun d => normPos d od.numLoops)) kind 0 od.iterTypes), st)
  | .dimDivisibleBy dim dv =>
    let t := normPos dim od.numLoops
    if (od.numLoops : Int) ≤ t then (some false, st)
    else
      match getIdx od.loopRanges t with
      | none => (none, st)
      | some size => (some (!isDynamic size && size % dv == 0), st)
  | .dimCapture dim c =>
    let t := normPos dim od.numLoops
    if (od.numLoops : Int) ≤ t then (some false, st)
    else
      match getIdx od.loopRanges t with
      | none => (none, st)
      | some size => (some true, st.setCell c size)
  | .inputNumEq n => (some (decide (od.inputs.length = n)), st)
  | .inputAllPerm => (some (od.inputs.all (fun o => o.mapClass.isPerm)), st)
  | .inputAllProjPerm => (some (od.inputs.all (fun o => o.mapClass.isProjPerm)), st)
  | .inputMatcher pos mid opt =>
    let t := normPos pos od.inputs.length
    if (od.inputs.length : Int) ≤ t then (some false, st)
    else
      match getIdx od.inputs t with
      | none => (none, st)
      | some oi =>
        match (g.valInfo oi.value).definingOp with
        | none => (some opt, st)
        | some dOp =>
          match mf mid dOp st with
          | (some b, st1) => (some (b || opt), st1)
          | (none, st1) => (none, st1)
  | .inputSubsetOf pos mid =>
    let t := normPos pos od.inputs.length
    if (od.inputs.length : Int) ≤ t then (some false, st)
    else
      match getIdx od.inputs t with
      | none => (none, st)
      | some oi =>
        match traverseSubsetsBackwards g (g.vals.length + 1) oi.value with
        | none => (none, st)
        | some producer => mf mid producer st
  | .outputNumEq n => (some (decide (od.inits.length = n)), st)
  | .outputAllPerm => (some (od.inits.all (fun o => o.mapClass.isPerm)), st)
  | .outputAllProjPerm => (some (od.inits.all (fun o => o.mapClass.isProjPerm)), st)
  | .outputBitWidth pos w =>
    let t := normPos pos od.inits.length
    if (od.inits.length : Int) ≤ t then (some false, st)
    else
      match getIdx od.inits t with
      | none => (none, st)
      | some oi =>
        (some (match oi.elemBitWidth with | some bw => decide (bw = w) | none => false), st)
  | .outputSingleCombiner pos =>
    let t := normPos pos od.inits.length
    if (od.inits.length : Int) ≤ t then (some false, st)
    else
      match getIdx od.inits t with
      | none => (none, st)
      | some oi => (some (oi.matchedReduction && decide (oi.combinerOps.length = 1)), st)
  | .outputMatcher pos mid opt =>
    let t := normPos pos od.inits.length
    if (od.inits.length : Int) ≤ t then (some false, st)
    else
      match getIdx od.inits t with
      | none => (none, st)
      | some oi =>
        match (g.valInfo oi.value).definingOp with
        | none => (some opt, st)
        | some dOp =>
          match mf mid dOp st with
          | (some b, st1) => (some (b || opt), st1)
          | (none, st1) => (none, st1)
  | .outputSubsetOf pos mid =>
    let t := normPos pos od.inputs.length
    if (od.inputs.length : Int) ≤ t then (some false, st)
    else
      match getIdx od.inits t with
      | none => (none, st)
      | some oi =>
        match traverseSubsetsBackwards g (g.vals.length + 1) oi.value with
        | none => (none, st)
        | some producer => mf mid producer st
  | .resultAnyUseMatcher pos mid opt =>
    let t := normPos pos od.results.length
    if (od.results.length : Int) ≤ t then (some false, st)
    else
      match getIdx od.results t with
      | none => (none, st)
      | some r =>
        match matchUsers mf mid ((g.valInfo r).uses.map Use.owner) st with
        | (some true, st1) => (some true, st1)
        | (some false, st1) => (some opt, st1)
        | (none, st1) => (none, st1)
  | .resultAnyUseSubsetOf pos mid opt =>
    let t := normPos pos od.results.length
    if (od.results.length : Int) ≤ t then (some false, st)
    else
      match getIdx od.results t with
      | none => (none, st)
      | some r =>
        match traverseSubsetsForwardAnyUse g (g.vals.length + 1) r with
        | none => (none, st)
        | some user =>
          match mf mid user st with
          | (some b, st1) => (some (b || opt), st1)
          | (none, st1) => (none, st1)
  | .allTilableCaptured =>
    (some (checkAllTilableMatched g (findAncestorFunc g g.ops.length op) op
      (ownNested.map (fun m => st.getCaptured m))), st)

/-- llvm::all_of over the predicate list (source lines 44-48): predicates
run in registration order, evaluation stops at the first predicate that is
not true, and the state accumulated so far is returned unchanged by the
predicates that never ran. -/
def evalPreds (g : Graph) (mf : MatcherFn) (ownNested : List Nat) :
    List Pred → Nat → MState → Option Bool × MState
  | [], _, st => (some true, st)
  | p :: rest, op, st =>
    match evalPred g mf ownNested p op st with
    | (some true, st1) => evalPreds g mf ownNested rest op st1
    | r => r

/-- Kind allow-list check supplied at matcher construction (header;
modelled from spec section 4.1). -/
def allowedOk (m : Matcher) (od : OpData) : Bool :=
  match m.allowed with
  | none => true
  | some ks => ks.contains od.kind

/-- Source lines 34-54, StructuredOpMatcher::match, plus the construction
time kind allow-list (spec section 4.1): dyn_cast to LinalgOp (and the
allow-list check) gate the predicates; on full success the node is recorded
in the matcher's captured slot; on failure the state is returned as the
predicates left it.  Recursive nested matches run with one unit of fuel
less; fuel 0 is the out-of-model marker none. -/
def matchOp (env : List Matcher) (g : Graph) : Nat → Nat → Nat → MState → Option Bool × MState
  | 0, _, _, st => (none, st)
  | fuel + 1, mid, op, st =>
    let m := env.getD mid {}
    let od := g.opData op
    if !od.kind.isLinalg then (some false, st)
    else if !allowedOk m od then (some false, st)
    else
      match evalPreds g (matchOp env g fuel) m.nested m.preds op st with
      | (some true, st1) => (some true, st1.setCaptured mid op)
      | r => r

/-!
The reduction pattern builder, TransformMatchers.cpp lines 602-694
(makeReductionMatcher).  The MatchedReductionCaptures fields are capture
cell indices; the four matchers are environment entries 0-3.
-/

/-- captures.reductionRank lives in cell 0. -/
def reductionRankCell : Nat := 0

/-- captures.mostMinorParallelDimensionSize lives in cell 1. -/
def mostMinorParallelDimensionSizeCell : Nat := 1

/-- captures.reductionDimensionSize lives in cell 2. -/
def reductionDimensionSizeCell : Nat := 2

/-- captures.maybeLeadingRank lives in cell 3. -/
def maybeLeadingRankCell : Nat := 3

/-- captures.maybeTrailingRank lives in cell 4. -/
def maybeTrailingRankCell : Nat := 4

/-- Environment ids of the four matchers built by makeReductionMatcher. -/
def reductionId : Nat := 0

/-- Id of the fill matcher. -/
def fillId : Nat := 1

/-- Id of the leading matcher. -/
def leadingId : Nat := 2

/-- Id of the trailing matcher. -/
def trailingId : Nat := 3

/-- Source line 652: fill = m_StructuredOp of linalg::FillOp, no
predicates. -/
def fillMatcher : Matcher := { allowed := some [OpKind.linalgFill] }

/-- Source lines 661-676: the shared core of the optional leading and
trailing matchers, anchored on linalg::GenericOp; dim(AllDims(), parallel)
forwards to dim(AllDimsExcept({}), parallel) per source lines 148-151. -/
def commonLeadingOrTrailingPreds : List Pred :=
  [ Pred.allDimsExceptIter [] IteratorType.parallel,
    Pred.inputAllProjPerm,
    Pred.outputAllPerm,
    Pred.outputNumEq 1 ]

/-- Source line 680: leading = commonLeadingOrTrailing.rank(capture of
maybeLeadingRank).  rank() appends to the shared matcher in place and
leading is a copy of the result. -/
def leadingMatcher : Matcher :=
  { allowed := some [OpKind.linalgGeneric],
    preds := commonLeadingOrTrailingPreds ++ [Pred.rankCapture maybeLeadingRankCell] }

/-- Source line 690: trailing = commonLeadingOrTrailing.rank(capture of
maybeTrailingRank).  Because line 680 already appended the maybeLeadingRank
capture to the shared commonLeadingOrTrailing matcher, the trailing matcher
carries both rank captures, leading first. -/
def trailingMatcher : Matcher :=
  { allowed := some [OpKind.linalgGeneric],
    preds := commonLeadingOrTrailingPreds ++
      [Pred.rankCapture maybeLeadingRankCell, Pred.rankCapture maybeTrailingRankCell] }

/-- Source lines 609-693: the reduction matcher predicate list, in
registration order, one entry per builder call; output(0, fill),
input(0, leading, OptionalMatch()) and result(0, HasAnyUse(), trailing,
OptionalMatch()) record the three nested matchers in that order. -/
def reductionMatcher : Matcher :=
  { allowed := none,
    preds :=
      [ Pred.rankGE 2,
        Pred.rankLE 4,
        Pred.rankCapture reductionRankCell,
        Pred.dimsIter [-1] IteratorType.reduction,
        Pred.dimCapture (-2) mostMinorParallelDimensionSizeCell,
        Pred.dimCapture (-1) reductionDimensionSizeCell,
        Pred.allDimsExceptIter [-1] IteratorType.parallel,
        Pred.inputNumEq 1,
        Pred.inputAllProjPerm,
        Pred.outputNumEq 1,
        Pred.outputAllProjPerm,
        Pred.outputBitWidth 0 32,
        Pred.outputSingleCombiner 0,
        Pred.outputNumEq 1,
        Pred.outputMatcher 0 fillId false,
        Pred.inputMatcher 0 leadingId true,
        Pred.resultAnyUseMatcher 0 trailingId true,
        Pred.allTilableCaptured ],
    nested := [fillId, leadingId, trailingId] }

/-- The matcher environment produced by makeReductionMatcher. -/
def reductionEnv : List Matcher :=
  [reductionMatcher, fillMatcher, leadingMatcher, trailingMatcher]

/-- The graph of the simple-reduction scenario: op 0 is the enclosing
function; op 1 a linalg.fill producing value 1; op 2 the 2-D reduction with
dimension 0 parallel of static size 128 and dimension 1 reduction of static
size 64, one 32-bit input (value 0, a function argument) and one init
(value 1, the fill result) with a single combiner, result value 2 unused. -/
def scenarioGraph : Graph :=
  { ops :=
      [ { kind := OpKind.func, containedOps := [1, 2] },
        { kind := OpKind.linalgFill, results := [1], parent := some 0 },
        { kind := OpKind.linalgGeneric,
          loopRanges := [128, 64],
          iterTypes := [IteratorType.parallel, IteratorType.reduction],
          inputs := [{ value := 0, mapClass := MapClass.projectedPermutation }],
          inits := [{ value := 1, mapClass := MapClass.projectedPermutation,
                      elemBitWidth := some 32, matchedReduction := true,
                      combinerOps := [7] }],
          results := [2], parent := some 0 } ],
    vals :=
      [ { parentOp := some 0, uses := [{ owner := 2, operandIdx := 0 }] },
        { definingOp := some 1, uses := [{ owner := 2, operandIdx := 1 }] },
        { definingOp := some 2 } ] }

/-- All-zero capture cells and empty captured slots for the scenario. -/
def scenarioStart : MState :=
  { cells := [0, 0, 0, 0, 0], captured := [none, none, none, none] }

/-- C9: on a 2-D structured op whose dimension 0 is parallel with static
size 128 and dimension 1 is reduction with static size 64, with a single
32-bit input and output, the output produced by a fill op and populated by
exactly one combiner, and no leading or trailing elementwise ops, the
reduction matcher built by makeReductionMatcher matches, and afterwards
captures.reductionRank = 2, captures.reductionDimensionSize = 64 and
captures.mostMinorParallelDimensionSize = 128. -/
theorem c9_simple_reduction_scenario :
    (matchOp reductionEnv scenarioGraph 5 reductionId 2 scenarioStart).1 = some true ∧
    (matchOp reductionEnv scenarioGraph 5 reductionId 2 scenarioStart).2.cells.getD
      reductionRankCell 0 = 2 ∧
    (matchOp reductionEnv scenarioGraph 5 reductionId 2 scenarioStart).2.cells.getD
      reductionDimensionSizeCell 0 = 64 ∧
    (matchOp reductionEnv scenarioGraph 5 reductionId 2 scenarioStart).2.cells.getD
      mostMinorParallelDimensionSizeCell 0 = 128 := by
  decide

/-!
Claim C1: short-circuit with capture.
-/

/-- Helper: llvm::all_of evaluation of a predicate list that succeeds on a
prefix and then fails stops exactly at the failing predicate; the remaining
predicates contribute nothing to the result or the state. -/
theorem evalPreds_append_fail (g : Graph) (mf : MatcherFn) (nested : List Nat)
    (ps qs : List Pred) (p : Pred) (op : Nat) (st st1 st2 : MState)
    (hps : evalPreds g mf nested ps op st = (some true, st1))
    (hp : evalPred g mf nested p op st1 = (some false, st2)) :
    evalPreds g mf nested (ps ++ p :: qs) op st = (some false, st2) := by
  induction ps generalizing st with
  | nil =>
    simp only [evalPreds, Prod.mk.injEq] at hps
    rw [hps.2]
    simp [evalPreds, hp]
  | cons a rest ih =>
    simp only [List.cons_append, evalPreds] at hps ⊢
    cases ha : evalPred g mf nested a op st with
    | mk r sta =>
      rw [ha] at hps
      match r with
      | some true => exact ih sta (by simpa using hps)
      | some false => simp at hps
      | none => simp at hps

/-- C1: for every matcher and every structured node that passes the kind
filter, match evaluates the registered predicates in registration order and
short-circuits on the first predicate returning false: the call returns
false with exactly the state produced by the predicates up to and including
the failing one, so every predicate registered after the failing one never
executes (a capture cell it would have written keeps its prior value, since
the result does not depend on the suffix qs at all), while the captures of
the predicates reached before the failure persist in the returned state. -/
theorem c1_short_circuit_with_capture (env : List Matcher) (g : Graph)
    (fuel mid op : Nat) (st st1 st2 : MState) (ps qs : List Pred) (p : Pred)
    (hpreds : (env.getD mid {}).preds = ps ++ p :: qs)
    (hlinalg : (g.opData op).kind.isLinalg = true)
    (hallowed : allowedOk (env.getD mid {}) (g.opData op) = true)
    (hps : evalPreds g (matchOp env g fuel) (env.getD mid {}).nested ps op st
      = (some true, st1))
    (hp : evalPred g (matchOp env g fuel) (env.getD mid {}).nested p op st1
      = (some false, st2)) :
    matchOp env g (fuel + 1) mid op st = (some false, st2) := by
  have h := evalPreds_append_fail g (matchOp env g fuel) (env.getD mid {}).nested
    ps qs p op st st1 st2 hps hp
  simp only [matchOp, hlinalg, hallowed, Bool.not_true, Bool.false_eq_true,
    if_false, hpreds, h]

/-- Concrete instance for C1: a matcher whose predicates are a rank capture
into cell 0, a failing rank bound, and a rank capture into cell 1, applied
to a rank-2 op: the first capture executes (cell 0 becomes 2), the failing
predicate stops evaluation, and cell 1 keeps its prior value 7. -/
def c1Graph : Graph :=
  { ops := [ { kind := OpKind.linalgGeneric, loopRanges := [3, 4],
               iterTypes := [IteratorType.parallel, IteratorType.parallel] } ] }

/-- Matcher environment of the C1 witness. -/
def c1Env : List Matcher :=
  [ { preds := [Pred.rankCapture 0, Pred.rankGE 5, Pred.rankCapture 1] } ]

/-- Witness for C1 at a concrete input. -/
theorem c1_short_circuit_witness :
    matchOp c1Env c1Graph 1 0 0 { cells := [9, 7], captured := [none] }
      = (some false, { cells := [2, 7], captured := [none] }) :=
  c1_short_circuit_with_capture c1Env c1Graph 0 0 0
    { cells := [9, 7], captured := [none] }
    { cells := [2, 7], captured := [none] }
    { cells := [2, 7], captured := [none] }
    [Pred.rankCapture 0] [Pred.rankCapture 1] (Pred.rankGE 5)
    rfl rfl rfl (by decide) (by decide)

/-!
Claim C2: optional operand/output predicates still run the nested matcher.
-/

/-- C2: for the recursive input predicate (addInputMatcher, source lines
232-258) and the recursive output predicate (addOutputMatcher, lines
382-408) at a normalized in-range position: when the operand value has no
producing operation the predicate returns the optional flag and leaves the
state untouched; when a producer exists the nested matcher is always
invoked — optional or not — and the predicate returns nestedMatch OR
optionalFlag together with whatever state (captures included) the nested
invocation produced, so captures written during a failed nested attempt
remain set. -/
theorem c2_optional_nested_always_runs (g : Graph) (mf : MatcherFn)
    (nested : List Nat) (pos : Int) (mid : Nat) (opt : Bool) (op : Nat) (st : MState) :
    (∀ oi, ¬ ((g.opData op).inputs.length : Int) ≤ normPos pos (g.opData op).inputs.length →
      getIdx (g.opData op).inputs (normPos pos (g.opData op).inputs.length) = some oi →
      ((g.valInfo oi.value).definingOp = none →
        evalPred g mf nested (Pred.inputMatcher pos mid opt) op st = (some opt, st)) ∧
      (∀ d b st1, (g.valInfo oi.value).definingOp = some d →
        mf mid d st = (some b, st1) →
        evalPred g mf nested (Pred.inputMatcher pos mid opt) op st = (some (b || opt), st1))) ∧
    (∀ oi, ¬ ((g.opData op).inits.length : Int) ≤ normPos pos (g.opData op).inits.length →
      getIdx (g.opData op).inits (normPos pos (g.opData op).inits.length) = some oi →
      ((g.valInfo oi.value).definingOp = none →
        evalPred g mf nested (Pred.outputMatcher pos mid opt) op st = (some opt, st)) ∧
      (∀ d b st1, (g.valInfo oi.value).definingOp = some d →
        mf mid d st = (some b, st1) →
        evalPred g mf nested (Pred.outputMatcher pos mid opt) op st = (some (b || opt), st1))) := by
  constructor
  · intro oi hbound hidx
    constructor
    · intro hdef
      simp [evalPred, hbound, hidx, hdef]
    · intro d b st1 hdef hmf
      simp [evalPred, hbound, hidx, hdef, hmf]
  · intro oi hbound hidx
    constructor
    · intro hdef
      simp [evalPred, hbound, hidx, hdef]
    · intro d b st1 hdef hmf
      simp [evalPred, hbound, hidx, hdef, hmf]

/-- Concrete graph for the C2 witness: op 0 consumes value 0, which is
produced by the rank-1 op 1. -/
def c2Graph : Graph :=
  { ops :=
      [ { kind := OpKind.linalgGeneric, inputs := [{ value := 0 }] },
        { kind := OpKind.linalgGeneric, iterTypes := [IteratorType.parallel] } ],
    vals := [ { definingOp := some 1 } ] }

/-- Environment for the C2 witness: matcher 1 captures the producer rank
into cell 0 and then fails on an impossible rank bound. -/
def c2Env : List Matcher :=
  [ {}, { preds := [Pred.rankCapture 0, Pred.rankGE 99] } ]

/-- Witness for C2: the optional input predicate on position 0 invokes the
nested matcher (which fails after writing cell 0), returns true because of
the optional flag, and the capture written during the failed nested attempt
remains set. -/
theorem c2_optional_nested_witness :
    evalPred c2Graph (matchOp c2Env c2Graph 1) [] (Pred.inputMatcher 0 1 true) 0
      { cells := [5], captured := [none, none] }
      = (some true, { cells := [1], captured := [none, none] }) :=
  ((c2_optional_nested_always_runs c2Graph (matchOp c2Env c2Graph 1) [] 0 1 true 0
      { cells := [5], captured := [none, none] }).1
    { value := 0 } (by decide) (by decide)).2
    1 false { cells := [1], captured := [none, none] } (by decide) (by decide)

/-!
Claim C3: the exhaustiveness check counts captured nodes as a set.
-/

/-- insertOnce preserves duplicate freedom. -/
theorem insertOnce_nodup (l : List Nat) (x : Nat) (h : l.Nodup) :
    (insertOnce l x).Nodup := by
  by_cases hx : x ∈ l
  · simpa [insertOnce, hx] using h
  · rw [insertOnce, if_neg hx]
    exact List.nodup_cons.mpr ⟨hx, h⟩

/-- insertOnce realizes Finset insertion. -/
theorem insertOnce_toFinset (l : List Nat) (x : Nat) :
    (insertOnce l x).toFinset = insert x l.toFinset := by
  by_cases hx : x ∈ l
  · simp only [insertOnce, hx, if_true]
    exact (Finset.insert_eq_self.mpr (List.mem_toFinset.mpr hx)).symm
  · simp [insertOnce, hx]

/-- The captured-node fold preserves duplicate freedom. -/
theorem capturedFold_nodup (caps : List (Option Nat)) (acc : List Nat)
    (h : acc.Nodup) : (capturedFold acc caps).Nodup := by
  induction caps generalizing acc with
  | nil => exact h
  | cons c rest ih =>
    cases c with
    | none => exact ih acc h
    | some o => exact ih (insertOnce acc o) (insertOnce_nodup acc o h)

/-- The captured-node fold collects exactly the non-null captured nodes. -/
theorem capturedFold_toFinset (caps : List (Option Nat)) (acc : List Nat) :
    (capturedFold acc caps).toFinset = acc.toFinset ∪ (caps.filterMap id).toFinset := by
  induction caps generalizing acc with
  | nil => simp [capturedFold]
  | cons c rest ih =>
    cases c with
    | none => simpa [capturedFold] using ih acc
    | some o =>
      rw [capturedFold, ih (insertOnce acc o), insertOnce_toFinset]
      simp [Finset.insert_union, Finset.union_insert]

/-- The successful branch of checkAllTilableMatched compares the tilable
count with the cardinality of the set of the root and the non-null
captures. -/
theorem checkAllTilableMatched_iff_card (g : Graph) (p root : Nat)
    (caps : List (Option Nat)) :
    checkAllTilableMatched g (some p) root caps = true ↔
      numTilable g p = (insert root (caps.filterMap id).toFinset).card := by
  have hnd : (insertOnce (capturedFold [] caps) root).Nodup :=
    insertOnce_nodup _ _ (capturedFold_nodup caps [] List.nodup_nil)
  have hfs : (insertOnce (capturedFold [] caps) root).toFinset
      = insert root (caps.filterMap id).toFinset := by
    rw [insertOnce_toFinset, capturedFold_toFinset]
    simp
  have hlen : (insertOnce (capturedFold [] caps) root).length
      = (insert root (caps.filterMap id).toFinset).card := by
    rw [← hfs, List.toFinset_card_of_nodup hnd]
  simp [checkAllTilableMatched, hlen]

/-- C3: checkAllTilableMatched returns false whenever the scope root is
null; otherwise it returns true iff the number of tilable operations under
the scope equals the size of the set containing the root op together with
every non-null node captured by a matcher in the given set; and adding one
more uncaptured tilable node under the scope flips a true result to
false. -/
theorem c3_check_all_tilable_matched :
    (∀ (g : Graph) (root : Nat) (caps : List (Option Nat)),
      checkAllTilableMatched g none root caps = false) ∧
    (∀ (g : Graph) (p root : Nat) (caps : List (Option Nat)),
      checkAllTilableMatched g (some p) root caps = true ↔
        numTilable g p = (insert root (caps.filterMap id).toFinset).card) ∧
    (∀ (g g2 : Graph) (p root : Nat) (caps : List (Option Nat)),
      numTilable g2 p = numTilable g p + 1 →
      checkAllTilableMatched g (some p) root caps = true →
      checkAllTilableMatched g2 (some p) root caps = false) := by
  refine ⟨fun g root caps => rfl, checkAllTilableMatched_iff_card, ?_⟩
  intro g g2 p root caps hplus htrue
  have h1 := (checkAllTilableMatched_iff_card g p root caps).mp htrue
  have h2 : ¬ (checkAllTilableMatched g2 (some p) root caps = true) := by
    rw [checkAllTilableMatched_iff_card, hplus, h1]
    omega
  simpa using h2

/-- Scope graph for the C3 witness: a function containing one structured
op. -/
def c3GraphA : Graph :=
  { ops := [ { kind := OpKind.func, containedOps := [1] },
             { kind := OpKind.linalgGeneric } ] }

/-- The same scope with one more (uncaptured) structured op under it. -/
def c3GraphB : Graph :=
  { ops := [ { kind := OpKind.func, containedOps := [1, 2] },
             { kind := OpKind.linalgGeneric },
             { kind := OpKind.linalgGeneric } ] }

/-- Witness for C3: with only the root captured the check succeeds on the
one-op scope, and the added uncaptured tilable op flips it to false. -/
theorem c3_check_all_tilable_witness :
    checkAllTilableMatched c3GraphB (some 0) 1 [] = false :=
  c3_check_all_tilable_matched.2.2 c3GraphA c3GraphB 0 1 [] (by decide) (by decide)

/-!
Claims C4, C5, C6, C8: divergences between the source and the spec.
-/

/-- Trivial match callback for predicates that never reach a nested
matcher. -/
def mfNone : MatcherFn := fun _ _ st => (none, st)

/-- Rank-2 structured op with static sizes 128 and 64 for C4. -/
def c4Graph : Graph :=
  { ops := [ { kind := OpKind.linalgGeneric, loopRanges := [128, 64],
               iterTypes := [IteratorType.parallel, IteratorType.reduction] } ] }

/-- C4 (divergence): on a rank-2 op the index -3 normalizes to -1, still
outside [0, 2).  The shape-kind and iteration-kind list predicates (source
lines 88-110 and 124-147) check both bounds and return false as the claim
states, but the divisibility predicate (lines 180-196) and the
dimension-capture predicate (lines 211-226) check only transformedDimension
>= rank, so the still-negative index escapes the check and
getStaticLoopRanges()[-1] is an out-of-bounds access (none, undefined
behaviour) instead of a non-match. -/
theorem c4_negative_normalized_index_oob :
    evalPred c4Graph mfNone [] (Pred.dimDivisibleBy (-3) 2) 0
      { cells := [0], captured := [] }
      = (none, { cells := [0], captured := [] }) ∧
    evalPred c4Graph mfNone [] (Pred.dimCapture (-3) 0) 0
      { cells := [0], captured := [] }
      = (none, { cells := [0], captured := [] }) ∧
    evalPred c4Graph mfNone [] (Pred.dimsShape [-3] ShapeKind.static) 0
      { cells := [0], captured := [] }
      = (some false, { cells := [0], captured := [] }) ∧
    evalPred c4Graph mfNone [] (Pred.dimsIter [-3] IteratorType.parallel) 0
      { cells := [0], captured := [] }
      = (some false, { cells := [0], captured := [] }) := by
  decide

/-- C5 graphs.  First graph: value 0 is used only as operand 0 of the
foreach_thread op 1, whose single output block argument (value 1) is tied
to exactly that operand; value 1 is consumed by op 2. -/
def c5GraphA : Graph :=
  { ops :=
      [ {},
        { kind := OpKind.foreachThread, operands := [0],
          outputBBArgs := [1], tiedOperandIdx := [0] },
        { kind := OpKind.other } ],
    vals :=
      [ { uses := [{ owner := 1, operandIdx := 0 }] },
        { parentOp := some 1, uses := [{ owner := 2, operandIdx := 0 }] } ] }

/-- Second graph: the foreach_thread op has two output block arguments,
value 1 tied to the use (operand 0, consumed by op 2) and value 2 tied to
operand 1 (consumed by op 3). -/
def c5GraphB : Graph :=
  { ops :=
      [ {},
        { kind := OpKind.foreachThread, operands := [0, 4],
          outputBBArgs := [1, 2], tiedOperandIdx := [0, 1] },
        { kind := OpKind.other },
        { kind := OpKind.other } ],
    vals :=
      [ { uses := [{ owner := 1, operandIdx := 0 }] },
        { parentOp := some 1, uses := [{ owner := 2, operandIdx := 0 }] },
        { parentOp := some 1, uses := [{ owner := 3, operandIdx := 0 }] },
        {},
        {} ] }

/-- C5 (divergence): the forward traversal's find_if searches for an output
block argument whose tied operand is NOT the current use (source lines
337-339).  On the first graph the only output is tied to the use, nothing
is found, and the loop op itself (1) is returned — the claim says the
traversal must continue from that tied output and reach its consumer 2.
On the second graph the traversal continues from the output that is tied to
a DIFFERENT operand and reaches consumer 3 — the claim says it must follow
the tied output and reach consumer 2. -/
theorem c5_forward_follows_untied_output :
    traverseSubsetsForwardAnyUse c5GraphA 4 0 = some 1 ∧
    traverseSubsetsForwardAnyUse c5GraphB 6 0 = some 3 := by
  decide

/-- Structured op with two inputs and a single init for C6. -/
def c6Graph : Graph :=
  { ops := [ { kind := OpKind.linalgGeneric,
               inputs := [{ value := 0 }, { value := 1 }],
               inits := [{ value := 2 }] } ],
    vals := [ {}, {}, { definingOp := none } ] }

/-- C6 (divergence): output(position, SubsetOf) normalizes and
bounds-checks the position against getNumDpsInputs() but then indexes the
init-operand list (source lines 484-491).  With two inputs and one init,
position -1 normalizes to 2 + (-1) = 1, passes the 1 >= 2 check, and
getDpsInitOperand(1) is an out-of-bounds access (none, undefined
behaviour); the claim says the position is normalized against the
output/init operand count, which would resolve init operand 0. -/
theorem c6_output_subset_uses_input_count :
    evalPred c6Graph mfNone [] (Pred.outputSubsetOf (-1) 0) 0
      { cells := [], captured := [] }
      = (none, { cells := [], captured := [] }) := by
  decide

/-- Graph with a single value that has no uses, for C8. -/
def c8Graph : Graph := { ops := [], vals := [ {} ] }

/-- C8 (divergence): on a value with no uses the for loop of
traverseSubsetsForwardAnyUse runs zero iterations and the enclosing
do-while(true) repeats with the same value forever (source lines 331-352):
no amount of fuel produces a result, i.e. the C++ loop never terminates,
while the claim says every traversal on a finite acyclic graph terminates —
explicitly including a value with no uses — and returns a consumer. -/
theorem c8_forward_diverges_on_value_without_uses :
    ∀ fuel : Nat, traverseSubsetsForwardAnyUse c8Graph fuel 0 = none := by
  intro fuel
  induction fuel with
  | zero => rfl
  | succ n ih =>
    rw [traverseSubsetsForwardAnyUse]
    simpa [Graph.valInfo, processUses] using ih

/-!
Claim C7: the captured slot after a failed match.
-/

/-- Whether a predicate invokes a nested matcher (the only way any captured
slot can be written during predicate evaluation). -/
def Pred.invokesNested : Pred → Bool
  | .inputMatcher _ _ _ => true
  | .inputSubsetOf _ _ => true
  | .outputMatcher _ _ _ => true
  | .outputSubsetOf _ _ => true
  | .resultAnyUseMatcher _ _ _ => true
  | .resultAnyUseSubsetOf _ _ _ => true
  | _ => false

/-- A predicate that does not invoke a nested matcher can write capture
cells but never a captured-node slot. -/
theorem evalPred_preserves_captured (g : Graph) (mf : MatcherFn) (nested : List Nat)
    (p : Pred) (op : Nat) (st : MState) (h : p.invokesNested = false) :
    ((evalPred g mf nested p op st).2).captured = st.captured := by
  cases p <;> try rfl
  all_goals try exact Bool.noConfusion h
  all_goals
    simp only [evalPred]
    split
    · rfl
    · split <;> rfl

/-- Predicate-list evaluation over nested-free predicates preserves every
captured-node slot. -/
theorem evalPreds_preserves_captured (g : Graph) (mf : MatcherFn) (nested : List Nat)
    (ps : List Pred) (op : Nat) (st : MState)
    (h : ∀ p ∈ ps, p.invokesNested = false) :
    ((evalPreds g mf nested ps op st).2).captured = st.captured := by
  induction ps generalizing st with
  | nil => rfl
  | cons p rest ih =>
    have hp : p.invokesNested = false := h p (List.mem_cons_self p rest)
    have hrest : ∀ q ∈ rest, q.invokesNested = false :=
      fun q hq => h q (List.mem_cons_of_mem p hq)
    have h1 := evalPred_preserves_captured g mf nested p op st hp
    simp only [evalPreds]
    cases he : evalPred g mf nested p op st with
    | mk r st1 =>
      rw [he] at h1
      match r with
      | some true => exact (ih st1 hrest).trans h1
      | some false => exact h1
      | none => exact h1

/-- C7 amended: a failed match leaves the matcher's captured slot (indeed
the whole captured map, for a matcher whose own predicates do not invoke
nested matchers) exactly as it was before the call; in particular a node
recorded by an earlier successful match remains readable after a later
failed match — the slot is untouched, not reset, and IS readable as a stale
success. -/
theorem c7_failure_leaves_captured_untouched (env : List Matcher) (g : Graph)
    (fuel mid op : Nat) (st : MState)
    (hpure : ∀ p ∈ (env.getD mid {}).preds, p.invokesNested = false)
    (hfail : (matchOp env g fuel mid op st).1 ≠ some true) :
    ((matchOp env g fuel mid op st).2).captured = st.captured := by
  cases fuel with
  | zero => rfl
  | succ n =>
    rw [matchOp] at hfail ⊢
    cases hk : (g.opData op).kind.isLinalg with
    | false => simp [hk]
    | true =>
      cases ha : allowedOk (env.getD mid {}) (g.opData op) with
      | false => simp [hk, ha]
      | true =>
        simp only [hk, ha, Bool.not_true, Bool.false_eq_true, if_false] at hfail ⊢
        have h1 := evalPreds_preserves_captured g (matchOp env g n)
          (env.getD mid {}).nested (env.getD mid {}).preds op st hpure
        cases he : evalPreds g (matchOp env g n) (env.getD mid {}).nested
            (env.getD mid {}).preds op st with
        | mk r st1 =>
          rw [he] at h1 hfail
          match r with
          | some true => exact absurd rfl hfail
          | some false => exact h1
          | none => exact h1

/-- Graph for C7: op 1 is a rank-1 structured op the matcher accepts, op 0
is a function op the matcher rejects at the dyn_cast. -/
def c7Graph : Graph :=
  { ops := [ { kind := OpKind.func },
             { kind := OpKind.linalgGeneric, iterTypes := [IteratorType.parallel] } ] }

/-- Single matcher requiring rank at least 1. -/
def c7Env : List Matcher := [ { preds := [Pred.rankGE 1] } ]

/-- Counterexample for C7 as stated: after matcher 0 successfully matches
op 1 (capturing it), a subsequent match call on op 0 returns false and the
captured slot still reads the node recorded by the earlier successful
match — a stale success readable by the caller, which the claim rules
out. -/
theorem c7_stale_capture_counterexample :
    (matchOp c7Env c7Graph 1 0 1 { cells := [], captured := [none] }).2.getCaptured 0
      = some 1 ∧
    matchOp c7Env c7Graph 1 0 0
        ((matchOp c7Env c7Graph 1 0 1 { cells := [], captured := [none] }).2)
      = (some false, (matchOp c7Env c7Graph 1 0 1 { cells := [], captured := [none] }).2) ∧
    (matchOp c7Env c7Graph 1 0 0
        ((matchOp c7Env c7Graph 1 0 1 { cells := [], captured := [none] }).2)).2.getCaptured 0
      = some 1 := by
  decide

/-- Witness for the amended C7 at a concrete input: a failed match leaves a
previously recorded captured node in place. -/
theorem c7_failure_untouched_witness :
    (matchOp c7Env c7Graph 1 0 0 { cells := [], captured := [some 7] }).2.captured
      = [some 7] :=
  c7_failure_leaves_captured_untouched c7Env c7Graph 1 0 0
    { cells := [], captured := [some 7] } (by decide) (by decide)

/-!
Claim C10: out-of-range excluded indices in dim(AllDimsExcept, kind).
-/

/-- A boolean equal to a decidable proposition's truth value. -/
theorem bool_eq_decide_of_iff {b : Bool} {P : Prop} [Decidable P]
    (h : b = true ↔ P) : b = decide P := by
  cases b <;> simp_all

/-- Characterization of the enumerate loop: it is true iff every dimension
whose enumerate index is not in the excluded set has the requested iterator
kind. -/
theorem allExceptAux_iff (ex : List Int) (kind : IteratorType) :
    ∀ (tys : List IteratorType) (i : Nat),
    allExceptAux ex kind i tys = true ↔
      ∀ j, j < tys.length → ¬ (((i + j : Nat) : Int) ∈ ex) →
        tys.getD j IteratorType.parallel = kind := by
  intro tys
  induction tys with
  | nil => simp [allExceptAux]
  | cons ty rest ih =>
    intro i
    rw [allExceptAux]
    by_cases hmem : (i : Int) ∈ ex
    · rw [if_pos hmem, ih (i + 1)]
      constructor
      · intro h j hj hnot
        cases j with
        | zero => exact absurd (by simpa using hmem) hnot
        | succ k =>
          have harith : (i + 1) + k = i + (k + 1) := by omega
          have := h k (Nat.lt_of_succ_lt_succ hj) (by rw [harith]; exact hnot)
          simpa using this
      · intro h k hk hnot
        have harith : i + (k + 1) = (i + 1) + k := by omega
        have := h (k + 1) (Nat.succ_lt_succ hk) (by rw [← harith] at hnot; exact hnot)
        simpa using this
    · rw [if_neg hmem]
      by_cases hty : ty = kind
      · rw [if_pos (by simp [hty]), ih (i + 1)]
        constructor
        · intro h j hj hnot
          cases j with
          | zero => simpa using hty
          | succ k =>
            have harith : (i + 1) + k = i + (k + 1) := by omega
            have := h k (Nat.lt_of_succ_lt_succ hj) (by rw [harith]; exact hnot)
            simpa using this
        · intro h k hk hnot
          have harith : i + (k + 1) = (i + 1) + k := by omega
          have := h (k + 1) (Nat.succ_lt_succ hk) (by rw [← harith] at hnot; exact hnot)
          simpa using this
      · rw [if_neg (by simpa using hty)]
        simp only [Bool.false_eq_true, false_iff, not_forall]
        refine ⟨0, by simp, by simpa using hmem, by simpa using hty⟩

/-- An excluded entry that no enumerate index can equal changes nothing. -/
theorem allExceptAux_cons_irrelevant (ex : List Int) (kind : IteratorType)
    (e : Int) :
    ∀ (tys : List IteratorType) (i : Nat),
    (∀ j, j < tys.length → ((i + j : Nat) : Int) ≠ e) →
    allExceptAux (e :: ex) kind i tys = allExceptAux ex kind i tys := by
  intro tys
  induction tys with
  | nil => intro i _; rfl
  | cons ty rest ih =>
    intro i he
    have h0 : ((i : Nat) : Int) ≠ e := by simpa using he 0 (by simp)
    have hrec : allExceptAux (e :: ex) kind (i + 1) rest
        = allExceptAux ex kind (i + 1) rest := by
      refine ih (i + 1) (fun j hj => ?_)
      have harith : (i + 1) + j = i + (j + 1) := by omega
      rw [harith]
      exact he (j + 1) (Nat.succ_lt_succ hj)
    rw [allExceptAux, allExceptAux]
    by_cases hm : (i : Int) ∈ ex
    · rw [if_pos (List.mem_cons_of_mem e hm), if_pos hm, hrec]
    · have hnotc : ¬ ((i : Int) ∈ e :: ex) := by
        simp only [List.mem_cons]
        rintro (hc | hc)
        · exact h0 hc
        · exact hm hc
      rw [if_neg hnotc, if_neg hm]
      by_cases hty : ty == kind
      · rw [if_pos hty, if_pos hty, hrec]
      · rw [if_neg hty, if_neg hty]

/-- C10: in the iteration-kind predicate over all dimensions except an
excluded set (source lines 153-178), an excluded index that is still
outside [0, rank) after negative-index normalization is silently ignored —
dropping it from the excluded list does not change the predicate — and the
predicate's result is exactly whether every non-excluded in-range dimension
has the required iterator kind. -/
theorem c10_out_of_range_excluded_ignored (g : Graph) (mf : MatcherFn)
    (nested : List Nat) (excl : List Int) (kind : IteratorType) (e : Int)
    (op : Nat) (st : MState)
    (he : normPos e (g.opData op).numLoops < 0 ∨
      ((g.opData op).numLoops : Int) ≤ normPos e (g.opData op).numLoops) :
    evalPred g mf nested (Pred.allDimsExceptIter (e :: excl) kind) op st
      = evalPred g mf nested (Pred.allDimsExceptIter excl kind) op st ∧
    evalPred g mf nested (Pred.allDimsExceptIter excl kind) op st
      = (some (decide (∀ j, j < (g.opData op).iterTypes.length →
          ¬ ((j : Int) ∈ excl.map (fun d => normPos d (g.opData op).numLoops)) →
          (g.opData op).iterTypes.getD j IteratorType.parallel = kind)), st) := by
  constructor
  · have hcons : allExceptAux
        ((e :: excl).map (fun d => normPos d (g.opData op).numLoops)) kind 0
        (g.opData op).iterTypes
        = allExceptAux (excl.map (fun d => normPos d (g.opData op).numLoops)) kind 0
          (g.opData op).iterTypes := by
      rw [List.map_cons]
      refine allExceptAux_cons_irrelevant _ kind _ _ 0 (fun j hj => ?_)
      have hj2 : ((0 + j : Nat) : Int) < ((g.opData op).numLoops : Int) := by
        have : j < (g.opData op).numLoops := hj
        omega
      have hj3 : (0 : Int) ≤ ((0 + j : Nat) : Int) := by positivity
      rcases he with hlt | hge
      · intro hc
        rw [hc] at hj3
        omega
      · intro hc
        rw [hc] at hj2
        omega
    simp only [evalPred, hcons]
  · have hiff := allExceptAux_iff
      (excl.map (fun d => normPos d (g.opData op).numLoops)) kind
      (g.opData op).iterTypes 0
    have hdec := bool_eq_decide_of_iff hiff
    simp only [evalPred, hdec, Nat.zero_add]

/-- Rank-2 all-parallel op for the C10 witness. -/
def c10Graph : Graph :=
  { ops := [ { kind := OpKind.linalgGeneric,
               iterTypes := [IteratorType.parallel, IteratorType.parallel] } ] }

/-- Witness for C10: excluding index -5 (which normalizes to -3, out of
range for rank 2) leaves the predicate unchanged. -/
theorem c10_out_of_range_excluded_witness :
    evalPred c10Graph mfNone [] (Pred.allDimsExceptIter [-5] IteratorType.parallel) 0
      { cells := [], captured := [] }
      = evalPred c10Graph mfNone [] (Pred.allDimsExceptIter [] IteratorType.parallel) 0
        { cells := [], captured := [] } :=
  (c10_out_of_range_excluded_ignored c10Graph mfNone [] [] IteratorType.parallel (-5) 0
    { cells := [], captured := [] } (by decide)).1

end TransformMatchers
